import Mathlib

/-!
Shallow embedding of the strategy-pattern demonstration repository
(the ReferenceSemantics, ValueSemantics and Template namespaces of the
source files), with theorems settling the specification claims.

Scalar models:
* `int32_t` is modelled as `Int` together with `wrap32`, which reduces every
  arithmetic result into `[-2^31, 2^31)` (two's-complement wrap-around).
* `float_t` (IEEE-754 binary32) is modelled exactly: a finite float is
  `units * 2^(-149)` for an integer `units` on the representable grid, and
  addition rounds the exact sum to the nearest representable value with
  ties to even, overflowing to infinity, exactly as IEEE-754 prescribes
  (the sign of zero is not tracked; no claim distinguishes `-0.0`).
-/

/-- Reduction of an integer into the `int32_t` range, modelling
two's-complement wrap-around on overflow. -/
def wrap32 (n : Int) : Int := (n + 2 ^ 31) % 2 ^ 32 - 2 ^ 31

/-- Fuel-driven binary logarithm: `lg2Aux fuel n` is `⌊log₂ n⌋` whenever
`n ≤ fuel` and `1 ≤ n`. Structural recursion on the fuel keeps it
kernel-reducible. -/
def lg2Aux : Nat → Nat → Nat
  | 0, _ => 0
  | fuel + 1, n => if n ≤ 1 then 0 else lg2Aux fuel (n / 2) + 1

/-- Binary logarithm (floor), total and kernel-reducible. -/
def lg2 (n : Nat) : Nat := lg2Aux n n

/-- Rounding of a magnitude `n` (in units of `2^(-149)`) to the nearest
IEEE-754 binary32 representable magnitude, ties to even; `none` means the
result overflows to infinity. Magnitudes below `2^24` units are subnormal
or small normal values and are exactly representable. -/
def roundMag (n : Nat) : Option Nat :=
  if n < 2 ^ 24 then some n
  else
    let j := lg2 n - 23
    let q := n / 2 ^ j
    let r := n % 2 ^ j
    let q2 :=
      if 2 * r > 2 ^ j then q + 1
      else if 2 * r < 2 ^ j then q
      else if q % 2 = 0 then q else q + 1
    let m := q2 * 2 ^ j
    if m < 2 ^ 277 then some m else none

/-- Signed rounding to the binary32 grid, in units of `2^(-149)`. -/
def roundK (k : Int) : Option Int :=
  (roundMag k.natAbs).map fun (m : Nat) => if k < 0 then -(m : Int) else (m : Int)

/-- Model of IEEE-754 binary32 (`float_t`): a finite value is
`units * 2^(-149)`; infinities and NaN are separate constructors. -/
inductive Float32 where
  | finite (units : Int)
  | posInf
  | negInf
  | nan
deriving DecidableEq

/-- Negation of a binary32 value. -/
def Float32.neg : Float32 → Float32
  | .finite k => .finite (-k)
  | .posInf => .negInf
  | .negInf => .posInf
  | .nan => .nan

/-- IEEE-754 binary32 addition: the exact sum of two finite operands lies on
the `2^(-149)` grid and is rounded to nearest, ties to even. -/
def Float32.add : Float32 → Float32 → Float32
  | .nan, _ => .nan
  | _, .nan => .nan
  | .posInf, .negInf => .nan
  | .negInf, .posInf => .nan
  | .posInf, _ => .posInf
  | _, .posInf => .posInf
  | .negInf, _ => .negInf
  | _, .negInf => .negInf
  | .finite a, .finite b =>
    match roundK (a + b) with
    | some k => .finite k
    | none => if a + b < 0 then .negInf else .posInf

/-- IEEE-754 binary32 subtraction. -/
def Float32.sub (a b : Float32) : Float32 := a.add b.neg

/-- The binary32 value `0.0f`. -/
def fzero : Float32 := .finite 0

/-- The binary32 value `1.0f` (`2^149` units of `2^(-149)`). -/
def fone : Float32 := .finite (2 ^ 149)

/-- Conversion of an integer to binary32 (round to nearest, ties to even). -/
def floatOfInt (n : Int) : Float32 :=
  match roundK (n * 2 ^ 149) with
  | some k => .finite k
  | none => if n < 0 then .negInf else .posInf

namespace ReferenceSemantics

/-- Concrete subclasses of `OperationStrategy<IntValue>` in the
reference-semantics design, distinguished by their dynamic type. -/
inductive IntOperationStrategy where
  | IncrementIntValueOperationStrategy
  | DecrementIntValueOperationStrategy
deriving DecidableEq

/-- Concrete subclasses of `OperationStrategy<FloatValue>`. -/
inductive FloatOperationStrategy where
  | IncrementFloatValueOperationStrategy
  | DecrementFloatValueOperationStrategy
deriving DecidableEq

/-- The `ReferenceSemantics::IntValue` container: an `int32_t` scalar and an
owned strategy behind `std::unique_ptr` (a null pointer is `none`). -/
structure IntValue where
  m_OperationStrategy : Option IntOperationStrategy
  m_Value : Int
deriving DecidableEq

/-- Accessor `IntValue::GetValue`. -/
def IntValue.GetValue (c : IntValue) : Int := c.m_Value

/-- Mutator `IntValue::SetValue`. -/
def IntValue.SetValue (c : IntValue) (value : Int) : IntValue :=
  { c with m_Value := value }

/-- Virtual dispatch of `OperationStrategy<IntValue>::Operation(IntValue&)`:
each concrete subclass sets the container's value from its current value. -/
def IntOperationStrategy.Operation :
    IntOperationStrategy → IntValue → IntValue
  | .IncrementIntValueOperationStrategy, value =>
    value.SetValue (wrap32 (value.GetValue + 1))
  | .DecrementIntValueOperationStrategy, value =>
    value.SetValue (wrap32 (value.GetValue - 1))

/-- Member `IntValue::Operation`, delegating to the owned strategy;
dereferencing a null strategy pointer is the failure case `none`. -/
def IntValue.Operation (c : IntValue) : Option IntValue :=
  match c.m_OperationStrategy with
  | some strategy => some (strategy.Operation c)
  | none => none

/-- Member `IntValue::SetOperationStrategy`, replacing the owned strategy. -/
def IntValue.SetOperationStrategy (c : IntValue)
    (operationStrategy : Option IntOperationStrategy) : IntValue :=
  { c with m_OperationStrategy := operationStrategy }

/-- The `ReferenceSemantics::FloatValue` container. -/
structure FloatValue where
  m_OperationStrategy : Option FloatOperationStrategy
  m_Value : Float32
deriving DecidableEq

/-- Accessor `FloatValue::GetValue`. -/
def FloatValue.GetValue (c : FloatValue) : Float32 := c.m_Value

/-- Mutator `FloatValue::SetValue`. -/
def FloatValue.SetValue (c : FloatValue) (value : Float32) : FloatValue :=
  { c with m_Value := value }

/-- Virtual dispatch of `OperationStrategy<FloatValue>::Operation`. -/
def FloatOperationStrategy.Operation :
    FloatOperationStrategy → FloatValue → FloatValue
  | .IncrementFloatValueOperationStrategy, value =>
    value.SetValue (value.GetValue.add fone)
  | .DecrementFloatValueOperationStrategy, value =>
    value.SetValue (value.GetValue.sub fone)

/-- Member `FloatValue::Operation`. -/
def FloatValue.Operation (c : FloatValue) : Option FloatValue :=
  match c.m_OperationStrategy with
  | some strategy => some (strategy.Operation c)
  | none => none

/-- Member `FloatValue::SetOperationStrategy`. -/
def FloatValue.SetOperationStrategy (c : FloatValue)
    (operationStrategy : Option FloatOperationStrategy) : FloatValue :=
  { c with m_OperationStrategy := operationStrategy }

/-- The polymorphic `ReferenceSemantics::Value` handle: every instance is
exactly one of the two containers. -/
inductive Value where
  | intValue (v : IntValue)
  | floatValue (v : FloatValue)
deriving DecidableEq

/-- Factory `ReferenceSemantics::CreateRandomValue`, with the two
`Random::RandomBool()` draws made explicit arguments: the first chooses
`IntValue` over `FloatValue`, the second chooses increment over decrement;
the container starts at scalar `0` (`0.0f`). Total: it always returns a
constructed instance. -/
def CreateRandomValue (b1 b2 : Bool) : Value :=
  if b1 then
    .intValue
      { m_OperationStrategy := some (if b2 then .IncrementIntValueOperationStrategy
          else .DecrementIntValueOperationStrategy),
        m_Value := 0 }
  else
    .floatValue
      { m_OperationStrategy := some (if b2 then .IncrementFloatValueOperationStrategy
          else .DecrementFloatValueOperationStrategy),
        m_Value := fzero }

end ReferenceSemantics

namespace ValueSemantics

/-- The `ValueSemantics::IntValue` container. Its strategy is a
`std::function<void(IntValue&)>`; every callable stored by this program only
reads and writes the container's scalar, so the callable is embedded as its
action on the stored scalar, and the empty `std::function` is `none`. -/
structure IntValue where
  m_OperationStrategy : Option (Int → Int)
  m_Value : Int

/-- Accessor `IntValue::GetValue`. -/
def IntValue.GetValue (c : IntValue) : Int := c.m_Value

/-- Mutator `IntValue::SetValue`. -/
def IntValue.SetValue (c : IntValue) (value : Int) : IntValue :=
  { c with m_Value := value }

/-- The function object `IncrementIntValueOperationStrategy`: its
`operator()` sets the value to value plus one. -/
def IncrementIntValueOperationStrategy : Int → Int :=
  fun v => wrap32 (v + 1)

/-- The lambda returned by `GetDecrementIntValueOperationStrategy()`. -/
def GetDecrementIntValueOperationStrategy : Int → Int :=
  fun v => wrap32 (v - 1)

/-- Member `IntValue::Operation`, invoking the stored callable on `*this`;
invoking an empty `std::function` is the failure case `none`. -/
def IntValue.Operation (c : IntValue) : Option IntValue :=
  match c.m_OperationStrategy with
  | some f => some (c.SetValue (f c.GetValue))
  | none => none

/-- Member `IntValue::SetOperationStrategy`. -/
def IntValue.SetOperationStrategy (c : IntValue)
    (operationStrategy : Option (Int → Int)) : IntValue :=
  { c with m_OperationStrategy := operationStrategy }

/-- The `ValueSemantics::FloatValue` container. -/
structure FloatValue where
  m_OperationStrategy : Option (Float32 → Float32)
  m_Value : Float32

/-- Accessor `FloatValue::GetValue`. -/
def FloatValue.GetValue (c : FloatValue) : Float32 := c.m_Value

/-- Mutator `FloatValue::SetValue`. -/
def FloatValue.SetValue (c : FloatValue) (value : Float32) : FloatValue :=
  { c with m_Value := value }

/-- The function object `IncrementFloatValueOperationStrategy`. -/
def IncrementFloatValueOperationStrategy : Float32 → Float32 :=
  fun v => v.add fone

/-- The lambda returned by `GetDecrementFloatValueOperationStrategy()`. -/
def GetDecrementFloatValueOperationStrategy : Float32 → Float32 :=
  fun v => v.sub fone

/-- Member `FloatValue::Operation`. -/
def FloatValue.Operation (c : FloatValue) : Option FloatValue :=
  match c.m_OperationStrategy with
  | some f => some (c.SetValue (f c.GetValue))
  | none => none

/-- Member `FloatValue::SetOperationStrategy`. -/
def FloatValue.SetOperationStrategy (c : FloatValue)
    (operationStrategy : Option (Float32 → Float32)) : FloatValue :=
  { c with m_OperationStrategy := operationStrategy }

/-- The polymorphic `ValueSemantics::Value` handle. -/
inductive Value where
  | intValue (v : IntValue)
  | floatValue (v : FloatValue)

/-- Factory `ValueSemantics::CreateRandomValue`, with the two
`Random::RandomBool()` draws made explicit arguments. -/
def CreateRandomValue (b1 b2 : Bool) : Value :=
  if b1 then
    .intValue
      { m_OperationStrategy := some (if b2 then IncrementIntValueOperationStrategy
          else GetDecrementIntValueOperationStrategy),
        m_Value := 0 }
  else
    .floatValue
      { m_OperationStrategy := some (if b2 then IncrementFloatValueOperationStrategy
          else GetDecrementFloatValueOperationStrategy),
        m_Value := fzero }

end ValueSemantics

namespace Template

/-- The `Template::IntValue<TOperationStrategy>` container (src/README.md,
`namespace Template`): the strategy is fixed by the type parameter and held
as a per-instance member `TOperationStrategy m_OperationStrategy{}`,
default-constructed, alongside the scalar; the constructor takes only the
initial value, and there is no `SetOperationStrategy`. -/
structure IntValue (TOperationStrategy : Type) where
  m_OperationStrategy : TOperationStrategy
  m_Value : Int
deriving DecidableEq

/-- Accessor `IntValue<TOperationStrategy>::GetValue`. -/
def IntValue.GetValue {T : Type} (c : IntValue T) : Int := c.m_Value

/-- Mutator `IntValue<TOperationStrategy>::SetValue`. -/
def IntValue.SetValue {T : Type} (c : IntValue T) (value : Int) :
    IntValue T :=
  { c with m_Value := value }

/-- Compile-time resolution of the call `m_OperationStrategy(*this)` in
`IntValue<TOperationStrategy>::Operation()`: the member
`operator()(IntValue<T>&)` of the strategy type, selected per template
instantiation. -/
class IntCall (T : Type) where
  callOp : T → IntValue T → IntValue T

/-- Member `IntValue<TOperationStrategy>::Operation`, invoking the stored
function object on `*this`. -/
def IntValue.Operation {T : Type} [IntCall T] (c : IntValue T) :
    IntValue T :=
  IntCall.callOp c.m_OperationStrategy c

/-- The stateless function-object type
`Template::IncrementIntValueOperationStrategy`. -/
structure IncrementIntValueOperationStrategy where
deriving DecidableEq

/-- The `operator()` of `Template::IncrementIntValueOperationStrategy`:
`value.SetValue(value.GetValue() + 1)`. -/
instance : IntCall IncrementIntValueOperationStrategy where
  callOp _ value := value.SetValue (wrap32 (value.GetValue + 1))

/-- The stateless function-object type
`Template::DecrementIntValueOperationStrategy`. -/
structure DecrementIntValueOperationStrategy where
deriving DecidableEq

/-- The `operator()` of `Template::DecrementIntValueOperationStrategy`:
`value.SetValue(value.GetValue() - 1)`. -/
instance : IntCall DecrementIntValueOperationStrategy where
  callOp _ value := value.SetValue (wrap32 (value.GetValue - 1))

/-- The `Template::FloatValue<TOperationStrategy>` container. -/
structure FloatValue (TOperationStrategy : Type) where
  m_OperationStrategy : TOperationStrategy
  m_Value : Float32
deriving DecidableEq

/-- Accessor `FloatValue<TOperationStrategy>::GetValue`. -/
def FloatValue.GetValue {T : Type} (c : FloatValue T) : Float32 :=
  c.m_Value

/-- Mutator `FloatValue<TOperationStrategy>::SetValue`. -/
def FloatValue.SetValue {T : Type} (c : FloatValue T) (value : Float32) :
    FloatValue T :=
  { c with m_Value := value }

/-- Compile-time resolution of the call `m_OperationStrategy(*this)` in
`FloatValue<TOperationStrategy>::Operation()`. -/
class FloatCall (T : Type) where
  callOp : T → FloatValue T → FloatValue T

/-- Member `FloatValue<TOperationStrategy>::Operation`. -/
def FloatValue.Operation {T : Type} [FloatCall T] (c : FloatValue T) :
    FloatValue T :=
  FloatCall.callOp c.m_OperationStrategy c

/-- The stateless function-object type
`Template::IncrementFloatValueOperationStrategy`. -/
structure IncrementFloatValueOperationStrategy where
deriving DecidableEq

/-- The `operator()` of `Template::IncrementFloatValueOperationStrategy`:
`value.SetValue(value.GetValue() + 1.0f)`. -/
instance : FloatCall IncrementFloatValueOperationStrategy where
  callOp _ value := value.SetValue (value.GetValue.add fone)

/-- The stateless function-object type
`Template::DecrementFloatValueOperationStrategy`. -/
structure DecrementFloatValueOperationStrategy where
deriving DecidableEq

/-- The `operator()` of `Template::DecrementFloatValueOperationStrategy`:
`value.SetValue(value.GetValue() - 1.0f)`. -/
instance : FloatCall DecrementFloatValueOperationStrategy where
  callOp _ value := value.SetValue (value.GetValue.sub fone)

/-- The polymorphic `Template::Value` handle: the four template
instantiations are distinct concrete types, each implementing it. -/
inductive Value where
  | intIncrement (v : IntValue IncrementIntValueOperationStrategy)
  | intDecrement (v : IntValue DecrementIntValueOperationStrategy)
  | floatIncrement (v : FloatValue IncrementFloatValueOperationStrategy)
  | floatDecrement (v : FloatValue DecrementFloatValueOperationStrategy)
deriving DecidableEq

/-- Factory `Template::CreateRandomValue`, with the two
`Random::RandomBool()` draws made explicit arguments: the first chooses the
int instantiations over the float ones, the second increment over
decrement; the chosen instantiation is constructed at scalar `0` (`0.0f`)
with its strategy member default-constructed. -/
def CreateRandomValue (b1 b2 : Bool) : Value :=
  if b1 then
    if b2 then .intIncrement { m_OperationStrategy := {}, m_Value := 0 }
    else .intDecrement { m_OperationStrategy := {}, m_Value := 0 }
  else
    if b2 then .floatIncrement { m_OperationStrategy := {}, m_Value := fzero }
    else .floatDecrement { m_OperationStrategy := {}, m_Value := fzero }

end Template

/-- Selection of one of the two concrete behaviors, used to describe the
externally visible call sequences of the unit tests (construction and
`SetOperationStrategy` always receive one of the two). -/
inductive StrategyChoice where
  | increment
  | decrement
deriving DecidableEq

/-- One externally visible call on a Design A or Design B container:
either `Operation()` or `SetOperationStrategy` with a chosen behavior. -/
inductive Step where
  | operation
  | setStrategy (choice : StrategyChoice)
deriving DecidableEq

namespace ReferenceSemantics

/-- The concrete Design A int strategy object constructed for a choice. -/
def intStrategyOf : StrategyChoice → IntOperationStrategy
  | .increment => .IncrementIntValueOperationStrategy
  | .decrement => .DecrementIntValueOperationStrategy

/-- The concrete Design A float strategy object constructed for a choice. -/
def floatStrategyOf : StrategyChoice → FloatOperationStrategy
  | .increment => .IncrementFloatValueOperationStrategy
  | .decrement => .DecrementFloatValueOperationStrategy

/-- Execution of a call sequence against a Design A int container; `none`
propagates the failure of an `Operation()` on a null strategy. -/
def runInt : List Step → IntValue → Option IntValue
  | [], c => some c
  | Step.operation :: rest, c =>
    match c.Operation with
    | some c2 => runInt rest c2
    | none => none
  | Step.setStrategy choice :: rest, c =>
    runInt rest (c.SetOperationStrategy (some (intStrategyOf choice)))

/-- Execution of a call sequence against a Design A float container. -/
def runFloat : List Step → FloatValue → Option FloatValue
  | [], c => some c
  | Step.operation :: rest, c =>
    match c.Operation with
    | some c2 => runFloat rest c2
    | none => none
  | Step.setStrategy choice :: rest, c =>
    runFloat rest (c.SetOperationStrategy (some (floatStrategyOf choice)))

end ReferenceSemantics

namespace ValueSemantics

/-- The concrete Design B int callable stored for a choice. -/
def intStrategyOf : StrategyChoice → (Int → Int)
  | .increment => IncrementIntValueOperationStrategy
  | .decrement => GetDecrementIntValueOperationStrategy

/-- The concrete Design B float callable stored for a choice. -/
def floatStrategyOf : StrategyChoice → (Float32 → Float32)
  | .increment => IncrementFloatValueOperationStrategy
  | .decrement => GetDecrementFloatValueOperationStrategy

/-- Execution of a call sequence against a Design B int container; `none`
propagates the failure of an `Operation()` on an empty `std::function`. -/
def runInt : List Step → IntValue → Option IntValue
  | [], c => some c
  | Step.operation :: rest, c =>
    match c.Operation with
    | some c2 => runInt rest c2
    | none => none
  | Step.setStrategy choice :: rest, c =>
    runInt rest (c.SetOperationStrategy (some (intStrategyOf choice)))

/-- Execution of a call sequence against a Design B float container. -/
def runFloat : List Step → FloatValue → Option FloatValue
  | [], c => some c
  | Step.operation :: rest, c =>
    match c.Operation with
    | some c2 => runFloat rest c2
    | none => none
  | Step.setStrategy choice :: rest, c =>
    runFloat rest (c.SetOperationStrategy (some (floatStrategyOf choice)))

end ValueSemantics

set_option maxRecDepth 100000

theorem lg2Aux_spec : ∀ (fuel n : Nat), 1 ≤ n → n ≤ fuel →
    2 ^ lg2Aux fuel n ≤ n ∧ n < 2 ^ (lg2Aux fuel n + 1) := by
  intro fuel
  induction fuel with
  | zero => intro n h1 h2; omega
  | succ fuel ih =>
    intro n h1 h2
    by_cases hn : n ≤ 1
    · have hn1 : n = 1 := by omega
      simp [lg2Aux, hn, hn1]
    · have hrec := ih (n / 2) (by omega) (by omega)
      have hstep : lg2Aux (fuel + 1) n = lg2Aux fuel (n / 2) + 1 := by
        simp [lg2Aux, hn]
      rw [hstep]
      constructor
      · calc 2 ^ (lg2Aux fuel (n / 2) + 1) = 2 * 2 ^ lg2Aux fuel (n / 2) := by ring
          _ ≤ 2 * (n / 2) := by omega
          _ ≤ n := by omega
      · calc n < 2 * (n / 2) + 2 := by omega
          _ ≤ 2 * 2 ^ (lg2Aux fuel (n / 2) + 1) := by omega
          _ = 2 ^ (lg2Aux fuel (n / 2) + 1 + 1) := by ring

theorem lg2_spec (n : Nat) (h : 1 ≤ n) :
    2 ^ lg2 n ≤ n ∧ n < 2 ^ (lg2 n + 1) :=
  lg2Aux_spec n n h le_rfl

theorem lg2_eq (a n : Nat) (h1 : 2 ^ a ≤ n) (h2 : n < 2 ^ (a + 1)) :
    lg2 n = a := by
  have h0 : 1 ≤ n := le_trans Nat.one_le_two_pow h1
  have hs := lg2_spec n h0
  rcases Nat.lt_trichotomy (lg2 n) a with hlt | heq | hgt
  · have : 2 ^ (lg2 n + 1) ≤ 2 ^ a := Nat.pow_le_pow_right (by norm_num) (by omega)
    omega
  · exact heq
  · have : 2 ^ (a + 1) ≤ 2 ^ lg2 n := Nat.pow_le_pow_right (by norm_num) (by omega)
    omega

theorem lg2_mul_two_pow (M e : Nat) (hM : 1 ≤ M) :
    lg2 (M * 2 ^ e) = lg2 M + e := by
  have hs := lg2_spec M hM
  apply lg2_eq
  · calc 2 ^ (lg2 M + e) = 2 ^ lg2 M * 2 ^ e := pow_add 2 _ _
      _ ≤ M * 2 ^ e := Nat.mul_le_mul_right _ hs.1
  · calc M * 2 ^ e < 2 ^ (lg2 M + 1) * 2 ^ e :=
        mul_lt_mul_of_pos_right hs.2 (Nat.pos_pow_of_pos e (by norm_num))
      _ = 2 ^ (lg2 M + e + 1) := by ring

theorem roundMag_exact (n : Nat) (hd : 2 ^ (lg2 n - 23) ∣ n)
    (hlt : n < 2 ^ 277) : roundMag n = some n := by
  unfold roundMag
  by_cases hs : n < 2 ^ 24
  · rw [if_pos hs]
  · rw [if_neg hs]
    have hj0 : 0 < 2 ^ (lg2 n - 23) := Nat.pos_pow_of_pos _ (by norm_num)
    have hr : n % 2 ^ (lg2 n - 23) = 0 := Nat.mod_eq_zero_of_dvd hd
    have hq : n / 2 ^ (lg2 n - 23) * 2 ^ (lg2 n - 23) = n := Nat.div_mul_cancel hd
    simp only [hr, mul_zero, gt_iff_lt, Nat.not_lt_zero, if_false, hj0, if_true, hq]
    rw [if_pos hlt]

theorem roundK_units (m : Int) (hm : m.natAbs ≤ 2 ^ 24) :
    roundK (m * 2 ^ 149) = some (m * 2 ^ 149) := by
  rcases eq_or_ne m 0 with rfl | hm0
  · simp [roundK, roundMag]
  · have hAbs : (m * 2 ^ 149).natAbs = m.natAbs * 2 ^ 149 := by
      rw [Int.natAbs_mul]
      norm_num
    have h1 : 1 ≤ m.natAbs := Int.natAbs_pos.mpr hm0
    have hlg : lg2 (m.natAbs * 2 ^ 149) = lg2 m.natAbs + 149 :=
      lg2_mul_two_pow _ _ h1
    have hlgM : lg2 m.natAbs ≤ 24 := by
      have hs := lg2_spec m.natAbs h1
      exact (Nat.pow_le_pow_iff_right (by norm_num)).mp (le_trans hs.1 hm)
    have hdvd : 2 ^ (lg2 (m.natAbs * 2 ^ 149) - 23) ∣ m.natAbs * 2 ^ 149 := by
      rw [hlg]
      have he : lg2 m.natAbs + 149 - 23 = lg2 m.natAbs + 126 := by omega
      rw [he]
      rcases Nat.lt_or_ge (lg2 m.natAbs) 24 with h | h
      · exact Dvd.dvd.mul_left (pow_dvd_pow 2 (by omega)) _
      · have h24 : lg2 m.natAbs = 24 := le_antisymm hlgM h
        have hge : 2 ^ 24 ≤ m.natAbs := by
          have hc := (lg2_spec _ h1).1
          rwa [h24] at hc
        have hMe : m.natAbs = 2 ^ 24 := le_antisymm hm hge
        rw [h24, hMe]
        exact ⟨2 ^ 23, by ring⟩
    have hlt : m.natAbs * 2 ^ 149 < 2 ^ 277 := by
      calc m.natAbs * 2 ^ 149 ≤ 2 ^ 24 * 2 ^ 149 := Nat.mul_le_mul_right _ hm
        _ < 2 ^ 277 := by norm_num
    unfold roundK
    rw [hAbs, roundMag_exact _ hdvd hlt, Option.map_some']
    congr 1
    have hcast : ((m.natAbs * 2 ^ 149 : Nat) : Int) = (m.natAbs : Int) * 2 ^ 149 := by
      push_cast
      ring
    rw [hcast]
    by_cases hneg : m * 2 ^ 149 < 0
    · rw [if_pos hneg]
      have hmn : ((m.natAbs : Int)) = -m := by omega
      rw [hmn]
      ring
    · rw [if_neg hneg]
      have hmnn : (0 : Int) ≤ m := by
        by_contra hc
        push_neg at hc
        exact hneg (mul_neg_of_neg_of_pos hc (by positivity))
      have hmp : ((m.natAbs : Int)) = m := by omega
      rw [hmp]

/-- Addition of grid multiples of `2^149` (integer-valued binary32 numbers
up to `2^24` in magnitude) is exact. -/
theorem fadd_units (x y : Int) (h : (x + y).natAbs ≤ 2 ^ 24) :
    Float32.add (.finite (x * 2 ^ 149)) (.finite (y * 2 ^ 149))
      = .finite ((x + y) * 2 ^ 149) := by
  have hsum : x * 2 ^ 149 + y * 2 ^ 149 = (x + y) * 2 ^ 149 := by ring
  simp only [Float32.add, hsum, roundK_units _ h]

/-- Subtraction of grid multiples of `2^149` is exact. -/
theorem fsub_units (x y : Int) (h : (x - y).natAbs ≤ 2 ^ 24) :
    Float32.sub (.finite (x * 2 ^ 149)) (.finite (y * 2 ^ 149))
      = .finite ((x - y) * 2 ^ 149) := by
  unfold Float32.sub
  have hneg : Float32.neg (.finite (y * 2 ^ 149)) = .finite (-y * 2 ^ 149) := by
    simp only [Float32.neg, Float32.finite.injEq]
    ring
  rw [hneg, fadd_units x (-y) (by omega)]
  congr 1

/-- The constant `1.0f` as a grid multiple. -/
theorem fone_units : fone = Float32.finite (1 * 2 ^ 149) := by
  norm_num [fone]

/-- Integers of small magnitude convert to binary32 exactly. -/
theorem floatOfInt_exact (n : Int) (h : n.natAbs ≤ 2 ^ 24) :
    floatOfInt n = .finite (n * 2 ^ 149) := by
  unfold floatOfInt
  rw [roundK_units _ h]

/-- Identity of `wrap32` on in-range `int32_t` values. -/
theorem wrap32_eq_self (n : Int) (h1 : -(2 ^ 31) ≤ n) (h2 : n < 2 ^ 31) :
    wrap32 n = n := by
  unfold wrap32
  omega

/-- Design A and Design B int containers report the same values on every
call sequence, started from the same scalar and matching behaviors. -/
theorem runInt_agree (steps : List Step) :
    ∀ (v : Int) (choice : StrategyChoice),
      (ReferenceSemantics.runInt steps
          { m_OperationStrategy := some (ReferenceSemantics.intStrategyOf choice),
            m_Value := v }).map ReferenceSemantics.IntValue.GetValue
        = (ValueSemantics.runInt steps
          { m_OperationStrategy := some (ValueSemantics.intStrategyOf choice),
            m_Value := v }).map ValueSemantics.IntValue.GetValue := by
  induction steps with
  | nil => intro v choice; rfl
  | cons s rest ih =>
    intro v choice
    cases s with
    | operation =>
      cases choice with
      | increment => exact ih (wrap32 (v + 1)) .increment
      | decrement => exact ih (wrap32 (v - 1)) .decrement
    | setStrategy c2 => exact ih v c2

/-- Design A and Design B float containers report the same values on every
call sequence. -/
theorem runFloat_agree (steps : List Step) :
    ∀ (f : Float32) (choice : StrategyChoice),
      (ReferenceSemantics.runFloat steps
          { m_OperationStrategy := some (ReferenceSemantics.floatStrategyOf choice),
            m_Value := f }).map ReferenceSemantics.FloatValue.GetValue
        = (ValueSemantics.runFloat steps
          { m_OperationStrategy := some (ValueSemantics.floatStrategyOf choice),
            m_Value := f }).map ValueSemantics.FloatValue.GetValue := by
  induction steps with
  | nil => intro f choice; rfl
  | cons s rest ih =>
    intro f choice
    cases s with
    | operation =>
      cases choice with
      | increment => exact ih (f.add fone) .increment
      | decrement => exact ih (f.sub fone) .decrement
    | setStrategy c2 => exact ih f c2

/-- Design A int runs from a constructed container never hit the null
strategy branch. -/
theorem RS_runInt_total (steps : List Step) :
    ∀ (v : Int) (choice : StrategyChoice),
      (ReferenceSemantics.runInt steps
          { m_OperationStrategy := some (ReferenceSemantics.intStrategyOf choice),
            m_Value := v }).isSome := by
  induction steps with
  | nil => intro v choice; rfl
  | cons s rest ih =>
    intro v choice
    cases s with
    | operation =>
      cases choice with
      | increment => exact ih (wrap32 (v + 1)) .increment
      | decrement => exact ih (wrap32 (v - 1)) .decrement
    | setStrategy c2 => exact ih v c2

/-- Design A float runs never hit the null strategy branch. -/
theorem RS_runFloat_total (steps : List Step) :
    ∀ (f : Float32) (choice : StrategyChoice),
      (ReferenceSemantics.runFloat steps
          { m_OperationStrategy := some (ReferenceSemantics.floatStrategyOf choice),
            m_Value := f }).isSome := by
  induction steps with
  | nil => intro f choice; rfl
  | cons s rest ih =>
    intro f choice
    cases s with
    | operation =>
      cases choice with
      | increment => exact ih (f.add fone) .increment
      | decrement => exact ih (f.sub fone) .decrement
    | setStrategy c2 => exact ih f c2

/-- Design B int runs from a constructed container never hit the empty
`std::function` branch. -/
theorem VS_runInt_total (steps : List Step) :
    ∀ (v : Int) (choice : StrategyChoice),
      (ValueSemantics.runInt steps
          { m_OperationStrategy := some (ValueSemantics.intStrategyOf choice),
            m_Value := v }).isSome := by
  induction steps with
  | nil => intro v choice; rfl
  | cons s rest ih =>
    intro v choice
    cases s with
    | operation =>
      cases choice with
      | increment => exact ih (wrap32 (v + 1)) .increment
      | decrement => exact ih (wrap32 (v - 1)) .decrement
    | setStrategy c2 => exact ih v c2

/-- Design B float runs never hit the empty `std::function` branch. -/
theorem VS_runFloat_total (steps : List Step) :
    ∀ (f : Float32) (choice : StrategyChoice),
      (ValueSemantics.runFloat steps
          { m_OperationStrategy := some (ValueSemantics.floatStrategyOf choice),
            m_Value := f }).isSome := by
  induction steps with
  | nil => intro f choice; rfl
  | cons s rest ih =>
    intro f choice
    cases s with
    | operation =>
      cases choice with
      | increment => exact ih (f.add fone) .increment
      | decrement => exact ih (f.sub fone) .decrement
    | setStrategy c2 => exact ih f c2

/-- While every intermediate value stays within `±2^23`, the Design A float
container tracks the int container exactly: unit increments are exact in
binary32 on that range. -/
theorem runIntFloat_track (steps : List Step) :
    ∀ (v : Int) (choice : StrategyChoice),
      v.natAbs + steps.length ≤ 2 ^ 23 →
      (ReferenceSemantics.runFloat steps
          { m_OperationStrategy := some (ReferenceSemantics.floatStrategyOf choice),
            m_Value := .finite (v * 2 ^ 149) }).map ReferenceSemantics.FloatValue.GetValue
        = (ReferenceSemantics.runInt steps
          { m_OperationStrategy := some (ReferenceSemantics.intStrategyOf choice),
            m_Value := v }).map (fun c => floatOfInt c.GetValue) := by
  induction steps with
  | nil =>
    intro v choice h
    show some (Float32.finite (v * 2 ^ 149)) = some (floatOfInt v)
    rw [floatOfInt_exact v (by simp at h; omega)]
  | cons s rest ih =>
    intro v choice h
    simp only [List.length_cons] at h
    cases s with
    | operation =>
      cases choice with
      | increment =>
        have hadd : (Float32.finite (v * 2 ^ 149)).add fone
            = .finite ((v + 1) * 2 ^ 149) := by
          rw [fone_units]
          exact fadd_units v 1 (by omega)
        have hwrap : wrap32 (v + 1) = v + 1 := wrap32_eq_self _ (by omega) (by omega)
        show (ReferenceSemantics.runFloat rest
            { m_OperationStrategy := some (ReferenceSemantics.floatStrategyOf .increment),
              m_Value := (Float32.finite (v * 2 ^ 149)).add fone }).map
              ReferenceSemantics.FloatValue.GetValue
          = (ReferenceSemantics.runInt rest
            { m_OperationStrategy := some (ReferenceSemantics.intStrategyOf .increment),
              m_Value := wrap32 (v + 1) }).map (fun c => floatOfInt c.GetValue)
        rw [hadd, hwrap]
        exact ih (v + 1) .increment (by omega)
      | decrement =>
        have hsub : (Float32.finite (v * 2 ^ 149)).sub fone
            = .finite ((v - 1) * 2 ^ 149) := by
          rw [fone_units]
          exact fsub_units v 1 (by omega)
        have hwrap : wrap32 (v - 1) = v - 1 := wrap32_eq_self _ (by omega) (by omega)
        show (ReferenceSemantics.runFloat rest
            { m_OperationStrategy := some (ReferenceSemantics.floatStrategyOf .decrement),
              m_Value := (Float32.finite (v * 2 ^ 149)).sub fone }).map
              ReferenceSemantics.FloatValue.GetValue
          = (ReferenceSemantics.runInt rest
            { m_OperationStrategy := some (ReferenceSemantics.intStrategyOf .decrement),
              m_Value := wrap32 (v - 1) }).map (fun c => floatOfInt c.GetValue)
        rw [hsub, hwrap]
        exact ih (v - 1) .decrement (by omega)
    | setStrategy c2 => exact ih v c2 (by omega)

/-- C1: in Designs A and B, for both scalar types, a container constructed
with initial value 0 (0.0f) and the Increment strategy holds 2 (2.0f) after
two `Operation()` calls, and holds 0 (0.0f) again after its strategy is
swapped to Decrement and two further `Operation()` calls are made. -/
theorem C1_unit_test_scenario :
    ((ReferenceSemantics.runInt [Step.operation, Step.operation]
        { m_OperationStrategy :=
            some .IncrementIntValueOperationStrategy, m_Value := 0 }).map
        ReferenceSemantics.IntValue.GetValue = some 2
      ∧ (ReferenceSemantics.runInt
          [Step.operation, Step.operation, Step.setStrategy .decrement,
            Step.operation, Step.operation]
        { m_OperationStrategy :=
            some .IncrementIntValueOperationStrategy, m_Value := 0 }).map
        ReferenceSemantics.IntValue.GetValue = some 0)
    ∧ ((ReferenceSemantics.runFloat [Step.operation, Step.operation]
        { m_OperationStrategy :=
            some .IncrementFloatValueOperationStrategy, m_Value := fzero }).map
        ReferenceSemantics.FloatValue.GetValue = some (.finite (2 * 2 ^ 149))
      ∧ (ReferenceSemantics.runFloat
          [Step.operation, Step.operation, Step.setStrategy .decrement,
            Step.operation, Step.operation]
        { m_OperationStrategy :=
            some .IncrementFloatValueOperationStrategy, m_Value := fzero }).map
        ReferenceSemantics.FloatValue.GetValue = some fzero)
    ∧ ((ValueSemantics.runInt [Step.operation, Step.operation]
        { m_OperationStrategy :=
            some ValueSemantics.IncrementIntValueOperationStrategy, m_Value := 0 }).map
        ValueSemantics.IntValue.GetValue = some 2
      ∧ (ValueSemantics.runInt
          [Step.operation, Step.operation, Step.setStrategy .decrement,
            Step.operation, Step.operation]
        { m_OperationStrategy :=
            some ValueSemantics.IncrementIntValueOperationStrategy, m_Value := 0 }).map
        ValueSemantics.IntValue.GetValue = some 0)
    ∧ ((ValueSemantics.runFloat [Step.operation, Step.operation]
        { m_OperationStrategy :=
            some ValueSemantics.IncrementFloatValueOperationStrategy, m_Value := fzero }).map
        ValueSemantics.FloatValue.GetValue = some (.finite (2 * 2 ^ 149))
      ∧ (ValueSemantics.runFloat
          [Step.operation, Step.operation, Step.setStrategy .decrement,
            Step.operation, Step.operation]
        { m_OperationStrategy :=
            some ValueSemantics.IncrementFloatValueOperationStrategy, m_Value := fzero }).map
        ValueSemantics.FloatValue.GetValue = some fzero) := by
  refine ⟨⟨by decide, by decide⟩, ⟨by decide, by decide⟩, ⟨by decide, by decide⟩,
    by decide, by decide⟩

/-- C2: in all three designs, one `Operation()` call applies exactly the
assigned behavior to the container's scalar, for every current value:
increment adds one (`int32_t` addition, i.e. wrapping) and decrement
subtracts one; the float behaviors add or subtract `1.0f` (binary32
addition). -/
theorem C2_operation_applies_behavior :
    (∀ v : Int, ReferenceSemantics.IntValue.Operation
        { m_OperationStrategy := some .IncrementIntValueOperationStrategy, m_Value := v }
        = some { m_OperationStrategy := some .IncrementIntValueOperationStrategy,
                 m_Value := wrap32 (v + 1) })
    ∧ (∀ v : Int, ReferenceSemantics.IntValue.Operation
        { m_OperationStrategy := some .DecrementIntValueOperationStrategy, m_Value := v }
        = some { m_OperationStrategy := some .DecrementIntValueOperationStrategy,
                 m_Value := wrap32 (v - 1) })
    ∧ (∀ f : Float32, ReferenceSemantics.FloatValue.Operation
        { m_OperationStrategy := some .IncrementFloatValueOperationStrategy, m_Value := f }
        = some { m_OperationStrategy := some .IncrementFloatValueOperationStrategy,
                 m_Value := f.add fone })
    ∧ (∀ f : Float32, ReferenceSemantics.FloatValue.Operation
        { m_OperationStrategy := some .DecrementFloatValueOperationStrategy, m_Value := f }
        = some { m_OperationStrategy := some .DecrementFloatValueOperationStrategy,
                 m_Value := f.sub fone })
    ∧ (∀ v : Int, ValueSemantics.IntValue.Operation
        { m_OperationStrategy := some ValueSemantics.IncrementIntValueOperationStrategy,
          m_Value := v }
        = some { m_OperationStrategy := some ValueSemantics.IncrementIntValueOperationStrategy,
                 m_Value := wrap32 (v + 1) })
    ∧ (∀ v : Int, ValueSemantics.IntValue.Operation
        { m_OperationStrategy := some ValueSemantics.GetDecrementIntValueOperationStrategy,
          m_Value := v }
        = some { m_OperationStrategy := some ValueSemantics.GetDecrementIntValueOperationStrategy,
                 m_Value := wrap32 (v - 1) })
    ∧ (∀ f : Float32, ValueSemantics.FloatValue.Operation
        { m_OperationStrategy := some ValueSemantics.IncrementFloatValueOperationStrategy,
          m_Value := f }
        = some { m_OperationStrategy := some ValueSemantics.IncrementFloatValueOperationStrategy,
                 m_Value := f.add fone })
    ∧ (∀ f : Float32, ValueSemantics.FloatValue.Operation
        { m_OperationStrategy := some ValueSemantics.GetDecrementFloatValueOperationStrategy,
          m_Value := f }
        = some { m_OperationStrategy := some ValueSemantics.GetDecrementFloatValueOperationStrategy,
                 m_Value := f.sub fone })
    ∧ (∀ (s : Template.IncrementIntValueOperationStrategy) (v : Int),
        Template.IntValue.Operation { m_OperationStrategy := s, m_Value := v }
        = { m_OperationStrategy := s, m_Value := wrap32 (v + 1) })
    ∧ (∀ (s : Template.DecrementIntValueOperationStrategy) (v : Int),
        Template.IntValue.Operation { m_OperationStrategy := s, m_Value := v }
        = { m_OperationStrategy := s, m_Value := wrap32 (v - 1) })
    ∧ (∀ (s : Template.IncrementFloatValueOperationStrategy) (f : Float32),
        Template.FloatValue.Operation { m_OperationStrategy := s, m_Value := f }
        = { m_OperationStrategy := s, m_Value := f.add fone })
    ∧ (∀ (s : Template.DecrementFloatValueOperationStrategy) (f : Float32),
        Template.FloatValue.Operation { m_OperationStrategy := s, m_Value := f }
        = { m_OperationStrategy := s, m_Value := f.sub fone }) :=
  ⟨fun _ => rfl, fun _ => rfl, fun _ => rfl, fun _ => rfl, fun _ => rfl,
    fun _ => rfl, fun _ => rfl, fun _ => rfl, fun _ _ => rfl, fun _ _ => rfl,
    fun _ _ => rfl, fun _ _ => rfl⟩

/-- C5: every factory, given its two boolean draws, constructs the chosen
container with initial scalar 0 (0.0f) and the chosen behavior, and always
returns an instance; the four boolean pairs enumerate exactly the four
(type × behavior) outcomes. -/
theorem C5_createRandomValue_outcomes :
    (ReferenceSemantics.CreateRandomValue true true
        = .intValue { m_OperationStrategy := some .IncrementIntValueOperationStrategy,
                      m_Value := 0 }
      ∧ ReferenceSemantics.CreateRandomValue true false
        = .intValue { m_OperationStrategy := some .DecrementIntValueOperationStrategy,
                      m_Value := 0 }
      ∧ ReferenceSemantics.CreateRandomValue false true
        = .floatValue { m_OperationStrategy := some .IncrementFloatValueOperationStrategy,
                        m_Value := fzero }
      ∧ ReferenceSemantics.CreateRandomValue false false
        = .floatValue { m_OperationStrategy := some .DecrementFloatValueOperationStrategy,
                        m_Value := fzero })
    ∧ (ValueSemantics.CreateRandomValue true true
        = .intValue { m_OperationStrategy := some ValueSemantics.IncrementIntValueOperationStrategy,
                      m_Value := 0 }
      ∧ ValueSemantics.CreateRandomValue true false
        = .intValue { m_OperationStrategy := some ValueSemantics.GetDecrementIntValueOperationStrategy,
                      m_Value := 0 }
      ∧ ValueSemantics.CreateRandomValue false true
        = .floatValue { m_OperationStrategy := some ValueSemantics.IncrementFloatValueOperationStrategy,
                        m_Value := fzero }
      ∧ ValueSemantics.CreateRandomValue false false
        = .floatValue { m_OperationStrategy := some ValueSemantics.GetDecrementFloatValueOperationStrategy,
                        m_Value := fzero })
    ∧ (Template.CreateRandomValue true true
        = .intIncrement { m_OperationStrategy := {}, m_Value := 0 }
      ∧ Template.CreateRandomValue true false
        = .intDecrement { m_OperationStrategy := {}, m_Value := 0 }
      ∧ Template.CreateRandomValue false true
        = .floatIncrement { m_OperationStrategy := {}, m_Value := fzero }
      ∧ Template.CreateRandomValue false false
        = .floatDecrement { m_OperationStrategy := {}, m_Value := fzero }) :=
  ⟨⟨rfl, rfl, rfl, rfl⟩, ⟨rfl, rfl, rfl, rfl⟩, rfl, rfl, rfl, rfl⟩

/-- C6: in Design C, the container type parameterized with the Increment
behavior, constructed at 0, holds 2 after two `Operation()` calls; the
container type parameterized with the Decrement behavior holds -2 after two
calls, for both scalar types. -/
theorem C6_template_scenario :
    (Template.IntValue.Operation (Template.IntValue.Operation
        ({ m_OperationStrategy := {}, m_Value := 0 }
          : Template.IntValue Template.IncrementIntValueOperationStrategy))).GetValue = 2
    ∧ (Template.IntValue.Operation (Template.IntValue.Operation
        ({ m_OperationStrategy := {}, m_Value := 0 }
          : Template.IntValue Template.DecrementIntValueOperationStrategy))).GetValue = -2
    ∧ (Template.FloatValue.Operation (Template.FloatValue.Operation
        ({ m_OperationStrategy := {}, m_Value := fzero }
          : Template.FloatValue Template.IncrementFloatValueOperationStrategy))).GetValue
      = .finite (2 * 2 ^ 149)
    ∧ (Template.FloatValue.Operation (Template.FloatValue.Operation
        ({ m_OperationStrategy := {}, m_Value := fzero }
          : Template.FloatValue Template.DecrementFloatValueOperationStrategy))).GetValue
      = .finite (-(2 * 2 ^ 149)) := by
  refine ⟨by decide, by decide, by decide, by decide⟩

/-- C7: `SetOperationStrategy` changes only the stored strategy: in Designs
A and B, for both scalar types, `GetValue()` is unchanged by a
`SetOperationStrategy` call on every container state. -/
theorem C7_setStrategy_preserves_value :
    (∀ (c : ReferenceSemantics.IntValue) (s : Option ReferenceSemantics.IntOperationStrategy),
      (c.SetOperationStrategy s).GetValue = c.GetValue)
    ∧ (∀ (c : ReferenceSemantics.FloatValue)
        (s : Option ReferenceSemantics.FloatOperationStrategy),
      (c.SetOperationStrategy s).GetValue = c.GetValue)
    ∧ (∀ (c : ValueSemantics.IntValue) (s : Option (Int → Int)),
      (c.SetOperationStrategy s).GetValue = c.GetValue)
    ∧ (∀ (c : ValueSemantics.FloatValue) (s : Option (Float32 → Float32)),
      (c.SetOperationStrategy s).GetValue = c.GetValue) :=
  ⟨fun _ _ => rfl, fun _ _ => rfl, fun _ _ => rfl, fun _ _ => rfl⟩

/-- C10: `Operation()` mutates only the scalar and never the stored
strategy: whenever the call succeeds, the strategy afterwards is the
strategy before, in Designs A and B; in Design C the per-instance strategy
member (a stateless function object whose type is fixed by the template
parameter) is likewise unchanged by `Operation()`, in all four
instantiations. -/
theorem C10_operation_preserves_strategy :
    (∀ c : ReferenceSemantics.IntValue,
      c.Operation.map (fun c2 => c2.m_OperationStrategy)
        = c.Operation.map (fun _ => c.m_OperationStrategy))
    ∧ (∀ c : ReferenceSemantics.FloatValue,
      c.Operation.map (fun c2 => c2.m_OperationStrategy)
        = c.Operation.map (fun _ => c.m_OperationStrategy))
    ∧ (∀ c : ValueSemantics.IntValue,
      c.Operation.map (fun c2 => c2.m_OperationStrategy)
        = c.Operation.map (fun _ => c.m_OperationStrategy))
    ∧ (∀ c : ValueSemantics.FloatValue,
      c.Operation.map (fun c2 => c2.m_OperationStrategy)
        = c.Operation.map (fun _ => c.m_OperationStrategy))
    ∧ (∀ c : Template.IntValue Template.IncrementIntValueOperationStrategy,
      c.Operation.m_OperationStrategy = c.m_OperationStrategy)
    ∧ (∀ c : Template.IntValue Template.DecrementIntValueOperationStrategy,
      c.Operation.m_OperationStrategy = c.m_OperationStrategy)
    ∧ (∀ c : Template.FloatValue Template.IncrementFloatValueOperationStrategy,
      c.Operation.m_OperationStrategy = c.m_OperationStrategy)
    ∧ (∀ c : Template.FloatValue Template.DecrementFloatValueOperationStrategy,
      c.Operation.m_OperationStrategy = c.m_OperationStrategy) := by
  refine ⟨fun c => ?_, fun c => ?_, fun c => ?_, fun c => ?_,
    fun c => rfl, fun c => rfl, fun c => rfl, fun c => rfl⟩
  · rcases c with ⟨s, v⟩
    cases s with
    | none => rfl
    | some st => cases st <;> rfl
  · rcases c with ⟨s, v⟩
    cases s with
    | none => rfl
    | some st => cases st <;> rfl
  · rcases c with ⟨s, v⟩
    cases s with
    | none => rfl
    | some st => rfl
  · rcases c with ⟨s, v⟩
    cases s with
    | none => rfl
    | some st => rfl

/-- C3 counterexample: the round-trip law fails on the float32 variant at
the representable value `16777216.0f` (`2^24`): adding `1.0f` rounds back
to `2^24` (tie to even), and subtracting `1.0f` then yields `2^24 - 1`,
not the original value. -/
theorem C3_roundtrip_counterexample :
    (ReferenceSemantics.FloatOperationStrategy.DecrementFloatValueOperationStrategy.Operation
      (ReferenceSemantics.FloatOperationStrategy.IncrementFloatValueOperationStrategy.Operation
        { m_OperationStrategy := some .IncrementFloatValueOperationStrategy,
          m_Value := .finite (2 ^ 24 * 2 ^ 149) })).GetValue
      = .finite ((2 ^ 24 - 1) * 2 ^ 149)
    ∧ ¬ ((ReferenceSemantics.FloatOperationStrategy.DecrementFloatValueOperationStrategy.Operation
      (ReferenceSemantics.FloatOperationStrategy.IncrementFloatValueOperationStrategy.Operation
        { m_OperationStrategy := some .IncrementFloatValueOperationStrategy,
          m_Value := .finite (2 ^ 24 * 2 ^ 149) })).GetValue
      = .finite (2 ^ 24 * 2 ^ 149)) := by
  refine ⟨by decide, by decide⟩

/-- C3 amended: increment followed by decrement is a round trip for every
int32 value (wrap-around included), and on the float32 variant for every
integer-valued float of magnitude at most `2^23 - 1`, the range on which
unit increments are exactly representable. -/
theorem C3_roundtrip_amended : ∀ (v n : Int),
    -(2 ^ 31) ≤ v → v < 2 ^ 31 → n.natAbs ≤ 2 ^ 23 - 1 →
    (ReferenceSemantics.IntOperationStrategy.DecrementIntValueOperationStrategy.Operation
      (ReferenceSemantics.IntOperationStrategy.IncrementIntValueOperationStrategy.Operation
        { m_OperationStrategy := some .IncrementIntValueOperationStrategy,
          m_Value := v })).GetValue = v
    ∧ (ReferenceSemantics.FloatOperationStrategy.DecrementFloatValueOperationStrategy.Operation
      (ReferenceSemantics.FloatOperationStrategy.IncrementFloatValueOperationStrategy.Operation
        { m_OperationStrategy := some .IncrementFloatValueOperationStrategy,
          m_Value := .finite (n * 2 ^ 149) })).GetValue = .finite (n * 2 ^ 149) := by
  intro v n h1 h2 h3
  constructor
  · show wrap32 (wrap32 (v + 1) - 1) = v
    unfold wrap32
    omega
  · show ((Float32.finite (n * 2 ^ 149)).add fone).sub fone = .finite (n * 2 ^ 149)
    rw [fone_units, fadd_units n 1 (by omega), fsub_units (n + 1) 1 (by omega)]
    norm_num

/-- C3 witness: the amended round trip at the concrete inputs 0 and 0. -/
theorem C3_roundtrip_witness :
    (-(2 ^ 31) ≤ (0 : Int) ∧ (0 : Int) < 2 ^ 31 ∧ (0 : Int).natAbs ≤ 2 ^ 23 - 1)
    ∧ ((ReferenceSemantics.IntOperationStrategy.DecrementIntValueOperationStrategy.Operation
      (ReferenceSemantics.IntOperationStrategy.IncrementIntValueOperationStrategy.Operation
        { m_OperationStrategy := some .IncrementIntValueOperationStrategy,
          m_Value := 0 })).GetValue = 0
      ∧ (ReferenceSemantics.FloatOperationStrategy.DecrementFloatValueOperationStrategy.Operation
        (ReferenceSemantics.FloatOperationStrategy.IncrementFloatValueOperationStrategy.Operation
          { m_OperationStrategy := some .IncrementFloatValueOperationStrategy,
            m_Value := .finite (0 * 2 ^ 149) })).GetValue = .finite (0 * 2 ^ 149)) :=
  ⟨⟨by decide, by decide, by decide⟩,
    C3_roundtrip_amended 0 0 (by decide) (by decide) (by decide)⟩

/-- C4: Designs A and B are observationally equivalent: from equal initial
scalars and matching behaviors, every finite sequence of `Operation()` and
`SetOperationStrategy` calls yields the same `GetValue()` reports (every
prefix of a sequence is itself a sequence, so values agree after each
step), for both scalar types. -/
theorem C4_designA_designB_equivalence :
    ∀ (steps : List Step) (choice : StrategyChoice) (v : Int) (f : Float32),
      ((ReferenceSemantics.runInt steps
          { m_OperationStrategy := some (ReferenceSemantics.intStrategyOf choice),
            m_Value := v }).map ReferenceSemantics.IntValue.GetValue
        = (ValueSemantics.runInt steps
          { m_OperationStrategy := some (ValueSemantics.intStrategyOf choice),
            m_Value := v }).map ValueSemantics.IntValue.GetValue)
      ∧ ((ReferenceSemantics.runFloat steps
          { m_OperationStrategy := some (ReferenceSemantics.floatStrategyOf choice),
            m_Value := f }).map ReferenceSemantics.FloatValue.GetValue
        = (ValueSemantics.runFloat steps
          { m_OperationStrategy := some (ValueSemantics.floatStrategyOf choice),
            m_Value := f }).map ValueSemantics.FloatValue.GetValue) :=
  fun steps choice v f => ⟨runInt_agree steps v choice, runFloat_agree steps f choice⟩

/-- C8: `Operation()` cannot fail on containers constructed with one of the
two behaviors and only ever swapped to one of the two: the null-strategy
branch (Design A) and the empty-`std::function` branch (Design B) are never
reached on any call sequence. -/
theorem C8_operation_never_fails :
    ∀ (steps : List Step) (choice : StrategyChoice) (v : Int) (f : Float32),
      (ReferenceSemantics.runInt steps
        { m_OperationStrategy := some (ReferenceSemantics.intStrategyOf choice),
          m_Value := v }).isSome
      ∧ (ReferenceSemantics.runFloat steps
        { m_OperationStrategy := some (ReferenceSemantics.floatStrategyOf choice),
          m_Value := f }).isSome
      ∧ (ValueSemantics.runInt steps
        { m_OperationStrategy := some (ValueSemantics.intStrategyOf choice),
          m_Value := v }).isSome
      ∧ (ValueSemantics.runFloat steps
        { m_OperationStrategy := some (ValueSemantics.floatStrategyOf choice),
          m_Value := f }).isSome :=
  fun steps choice v f =>
    ⟨RS_runInt_total steps v choice, RS_runFloat_total steps f choice,
      VS_runInt_total steps v choice, VS_runFloat_total steps f choice⟩

/-- C9 counterexample: the float container does not mirror the int
container on every sequence: from initial scalar `2^31 - 1` one Increment
`Operation()` wraps the int container to `-2^31`, while the float container
(started at the float32 image of `2^31 - 1`, which is `2^31`) stays at
`2^31`. -/
theorem C9_int_float_counterexample :
    ¬ ((ReferenceSemantics.runFloat [Step.operation]
        { m_OperationStrategy := some (ReferenceSemantics.floatStrategyOf .increment),
          m_Value := floatOfInt (2 ^ 31 - 1) }).map ReferenceSemantics.FloatValue.GetValue
      = (ReferenceSemantics.runInt [Step.operation]
        { m_OperationStrategy := some (ReferenceSemantics.intStrategyOf .increment),
          m_Value := 2 ^ 31 - 1 }).map (fun c => floatOfInt c.GetValue)) := by
  decide

/-- C9 amended: as long as the initial magnitude plus the number of steps
stays within `2^23` (so no int32 overflow and no float32 rounding can
occur), the float container's value after every step equals the float32
image of the int container's value after the same steps. -/
theorem C9_int_float_amended :
    ∀ (v : Int) (choice : StrategyChoice) (steps : List Step),
      v.natAbs + steps.length ≤ 2 ^ 23 →
      (ReferenceSemantics.runFloat steps
          { m_OperationStrategy := some (ReferenceSemantics.floatStrategyOf choice),
            m_Value := floatOfInt v }).map ReferenceSemantics.FloatValue.GetValue
        = (ReferenceSemantics.runInt steps
          { m_OperationStrategy := some (ReferenceSemantics.intStrategyOf choice),
            m_Value := v }).map (fun c => floatOfInt c.GetValue) := by
  intro v choice steps h
  rw [floatOfInt_exact v (by omega)]
  exact runIntFloat_track steps v choice h

/-- C9 witness: the amended tracking at initial scalar 0 over one step. -/
theorem C9_int_float_witness :
    ((0 : Int).natAbs + [Step.operation].length ≤ 2 ^ 23)
    ∧ (ReferenceSemantics.runFloat [Step.operation]
        { m_OperationStrategy := some (ReferenceSemantics.floatStrategyOf .increment),
          m_Value := floatOfInt 0 }).map ReferenceSemantics.FloatValue.GetValue
      = (ReferenceSemantics.runInt [Step.operation]
        { m_OperationStrategy := some (ReferenceSemantics.intStrategyOf .increment),
          m_Value := 0 }).map (fun c => floatOfInt c.GetValue) :=
  ⟨by decide, C9_int_float_amended 0 .increment [Step.operation] (by decide)⟩
